import Mathlib

/-!
Verification of the status-derivation engine of the school vaccination
programme prototype.

The JavaScript enumerations (`app/enums.js`) are maps from member names to
display strings, and the code compares enum values by string equality —
including across enumerations (`getConfirmedConsentOutcome` falls through to
`return reply.decision`, which only works because `ReplyDecision.Refused`
and `ConsentOutcome.Refused` are the same string).  The embedding therefore
models every enum member as a `String` constant carrying the source's string
value, so that all cross-enum coincidences are preserved exactly.

Dates are modelled as integers at day granularity: the source normalises
both `today()` and session dates to midday before comparing them
(`isAfter(setMidday(today()), this.lastDate)`), so two dates compare equal
exactly when they fall on the same day and `isAfter` is ordinary `>`.
-/

namespace Mavis

/-! ## Enumerations (`app/enums.js`) -/

namespace ReplyDecision

def NoResponse : String := "No response"

def Given : String := "Consent given"

def OnlyAlternative : String := "Consent given for alternative vaccine"

def OnlyMenACWY : String := "Consent given for MenACWY only"

def OnlyTdIPV : String := "Consent given for Td/IPV only"

def Declined : String := "Follow up requested"

def Refused : String := "Consent refused"

end ReplyDecision

namespace ConsentOutcome

def NoRequest : String := "Request failed"

def NoResponse : String := "No response"

def Inconsistent : String := "Conflicting consent"

def Given : String := "Consent given"

def GivenForAlternativeOnly : String := "Consent given for alternative vaccine only"

def Declined : String := "Follow up requested"

def Refused : String := "Consent refused"

def FinalRefusal : String := "Refusal confirmed"

end ConsentOutcome

namespace ScreenOutcome

def Vaccinate : String := "Safe to vaccinate"

def NeedsTriage : String := "Needs triage"

def DelayVaccination : String := "Delay vaccination"

def DoNotVaccinate : String := "Do not vaccinate"

end ScreenOutcome

namespace TriageOutcome

def Needed : String := "Triage needed"

def Completed : String := "Triage completed"

def NotNeeded : String := "No triage needed"

end TriageOutcome

namespace PatientOutcome

def NoOutcomeYet : String := "No outcome yet"

def Vaccinated : String := "Vaccinated"

def CouldNotVaccinate : String := "Could not vaccinate"

end PatientOutcome

namespace Activity

def Consent : String := "Get consent"

def Triage : String := "Triage health answers"

def Register : String := "Register attendance"

def Record : String := "Record vaccination"

def Report : String := "Report outcome"

def DoNotRecord : String := "Do not record"

end Activity

namespace RegistrationOutcome

def Pending : String := "Not registered yet"

def Present : String := "Attending session"

def Absent : String := "Absent from session"

def Complete : String := "Completed session"

end RegistrationOutcome

namespace SessionStatus

def Unplanned : String := "No sessions scheduled"

def Planned : String := "Scheduled session dates"

def Completed : String := "All session dates completed"

def Closed : String := "Closed"

end SessionStatus

namespace VaccinationOutcome

def Vaccinated : String := "Vaccinated"

def PartVaccinated : String := "Partially vaccinated"

def AlreadyVaccinated : String := "Already had the vaccine"

def Contraindications : String := "Child contraindicated"

def Refused : String := "Child refused"

def Absent : String := "Child absent"

def Unwell : String := "Child unwell"

end VaccinationOutcome

namespace ParentalRelationship

def Mum : String := "Mum"

def Dad : String := "Dad"

def Guardian : String := "Guardian"

def Fosterer : String := "Foster carer"

def Other : String := "Other"

def Unknown : String := "Unknown"

end ParentalRelationship

namespace ReplyMethod

def Website : String := "Online"

def Phone : String := "By phone"

def Paper : String := "Paper form"

def InPerson : String := "In person"

end ReplyMethod

namespace NotifyEmailStatus

def Delivered : String := "Delivered"

end NotifyEmailStatus

namespace NotifySmsStatus

def Delivered : String := "Delivered"

end NotifySmsStatus

/-- `Object.values(ParentalRelationship)`, as used by `getConsentOutcome`. -/
def parentalRelationships : List String :=
  [ParentalRelationship.Mum, ParentalRelationship.Dad,
   ParentalRelationship.Guardian, ParentalRelationship.Fosterer,
   ParentalRelationship.Other, ParentalRelationship.Unknown]

/-! ## Data model -/

/-- A parent or guardian (`app/models/parent.js`), restricted to the fields
the consent engine reads: the relationship to the child and the delivery
state of the consent request (`Reply.delivered`). An absent email address is
the empty string, matching the falsiness test `this.parent?.email`. -/
structure Parent where
  relationship : String
  email : String
  emailStatus : String
  sms : Bool
  smsStatus : String
  deriving Repr, DecidableEq

/-- Answers to health questions: a map from question key to the answer given
(`reply.healthAnswers`, an object of `\x7b answer, details \x7d` records; only
the `answer` string is read by the derivation functions). -/
abbrev HealthAnswers := List (String × String)

/-- A consent reply (`app/models/reply.js`), restricted to the stored fields
the derivation functions read. `declined`, `given`, `delivered` and
`relationship` are derived below exactly as the class computes them.
`child = true` means a child record is attached (a self-consent reply has a
child and no parent). -/
structure Reply where
  decision : String
  confirmed : Bool
  invalid : Bool
  healthAnswers : Option HealthAnswers
  method : String
  parent : Option Parent
  child : Bool
  deriving Repr, DecidableEq

/-- The decisions for which the `Reply` constructor sets `this.given`. -/
def givenDecisions : List String :=
  [ReplyDecision.Given, ReplyDecision.OnlyAlternative,
   ReplyDecision.OnlyMenACWY, ReplyDecision.OnlyTdIPV]

/-- `this.declined = this.decision === ReplyDecision.Declined`. -/
def Reply.declined (r : Reply) : Bool :=
  r.decision == ReplyDecision.Declined

/-- `this.given = [Given, OnlyAlternative, OnlyMenACWY, OnlyTdIPV].includes(this.decision)`. -/
def Reply.given (r : Reply) : Bool :=
  givenDecisions.contains r.decision

/-- `Reply.delivered` getter: only online invites can fail delivery; an
online invite was delivered when the parent has an email that was delivered
or opted into SMS and the SMS was delivered. -/
def Reply.delivered (r : Reply) : Bool :=
  if r.method != ReplyMethod.Website then
    true
  else
    match r.parent with
    | some p =>
        (p.email != "" && p.emailStatus == NotifyEmailStatus.Delivered)
          || (p.sms && p.smsStatus == NotifySmsStatus.Delivered)
    | none => false

/-- `Reply.relationship` getter: the parent's relationship, or the fixed
string for a Gillick-competent child, or `undefined` (`none`). -/
def Reply.relationship (r : Reply) : Option String :=
  match r.parent with
  | some p => some p.relationship
  | none => if r.child then some "Child (Gillick competent)" else none

/-- `parentalRelationships.includes(reply.relationship)`: `includes` of
`undefined` is `false` in JavaScript. -/
def Reply.isParental (r : Reply) : Bool :=
  match r.relationship with
  | some rel => parentalRelationships.contains rel
  | none => false

/-- The construction inputs of a `Reply` (the `options` argument of the
class constructor) for the fields modelled here. -/
structure ReplyOptions where
  decision : String
  confirmed : Bool
  invalid : Bool
  healthAnswers : Option HealthAnswers
  method : String
  parent : Option Parent
  child : Bool
  deriving Repr, DecidableEq

/-- The `Reply` constructor: `invalid` is forced to `false` for a
no-response decision (`// Don't show non response as invalid`), and
`healthAnswers` is only kept when the decision gives consent
(`this.healthAnswers = this.given && options?.healthAnswers`). -/
def Reply.ofOptions (o : ReplyOptions) : Reply :=
  { decision := o.decision
    confirmed := o.confirmed
    invalid :=
      if o.decision == ReplyDecision.NoResponse then false else o.invalid
    healthAnswers :=
      if givenDecisions.contains o.decision then o.healthAnswers else none
    method := o.method
    parent := o.parent
    child := o.child }

/-- A programme, restricted to whether it offers an alternative vaccine. -/
structure Programme where
  alternativeVaccine : Bool
  deriving Repr, DecidableEq

/-- A session as read by the consent aggregator: the programmes offered. -/
structure Session where
  programmes : List Programme
  deriving Repr, DecidableEq

/-- `Session.offersAlternativeVaccine` getter. -/
def Session.offersAlternativeVaccine (s : Session) : Bool :=
  (s.programmes.filter (fun p => p.alternativeVaccine)).length > 0

/-- A triage audit event (`app/models/audit-event.js`): creation instant and
the optional triage outcome (a `ScreenOutcome` value when set). -/
structure AuditEvent where
  createdAt : Int
  outcome : Option String
  deriving Repr, DecidableEq

/-- A vaccination record, restricted to its outcome. -/
structure Vaccination where
  outcome : String
  deriving Repr, DecidableEq

/-- `this.given = [Vaccinated, PartVaccinated, AlreadyVaccinated].includes(this.outcome)`. -/
def Vaccination.given (v : Vaccination) : Bool :=
  [VaccinationOutcome.Vaccinated, VaccinationOutcome.PartVaccinated,
   VaccinationOutcome.AlreadyVaccinated].contains v.outcome

/-! ## Consent aggregator (`app/utils/reply.js`) -/

/-- `getConfirmedConsentOutcome(reply, session)`: map a single delivered
reply's decision to a consent outcome. The final fallthrough returns
`reply.decision` itself, relying on the shared string values. -/
def getConfirmedConsentOutcome (r : Reply) (s : Session) : String :=
  if r.decision == ReplyDecision.NoResponse then
    ConsentOutcome.NoResponse
  else if r.decision == ReplyDecision.Refused && r.confirmed then
    ConsentOutcome.FinalRefusal
  else if r.given then
    if s.offersAlternativeVaccine && r.decision == ReplyDecision.OnlyAlternative then
      ConsentOutcome.GivenForAlternativeOnly
    else
      ConsentOutcome.Given
  else
    r.decision

/-- `_.uniqBy(replies, 'decision')`: keep the first reply for each distinct
decision value, in order. -/
def uniqByDecision : List Reply → List String → List Reply
  | [], _ => []
  | r :: rest, seen =>
      if seen.contains r.decision then
        uniqByDecision rest seen
      else
        r :: uniqByDecision rest (r.decision :: seen)

/-- `getConsentOutcome(patientSession)`, as a function of the patient
session's replies (scoped to its programme) and its session.  Invalid
replies are dropped first; a single reply resolves directly; several replies
are narrowed to the delivered ones, and conflicting decisions are resolved
by the child-reply / declined / inconsistent precedence. -/
def getConsentOutcome (rs : List Reply) (s : Session) : String :=
  let replies := rs.filter (fun r => !r.invalid)
  match replies with
  | [r] =>
      if !r.delivered then
        ConsentOutcome.NoRequest
      else
        getConfirmedConsentOutcome r s
  | [] => ConsentOutcome.NoResponse
  | _ :: _ :: _ =>
      let delivered := replies.filter (fun r => r.delivered)
      if delivered.length == 0 then
        ConsentOutcome.NoRequest
      else
        let decisions := uniqByDecision delivered []
        if decisions.length > 1 then
          match delivered.find? (fun r => !r.isParental) with
          | some childReply => getConfirmedConsentOutcome childReply s
          | none =>
              match decisions.find? (fun r => r.declined) with
              | some _ => ConsentOutcome.Declined
              | none => ConsentOutcome.Inconsistent
        else
          match decisions with
          | d :: _ => getConfirmedConsentOutcome d s
          | [] => ConsentOutcome.NoResponse
          -- `decisions[0]` with `decisions` empty cannot be reached:
          -- `delivered` is non-empty here, so `uniqByDecision` keeps
          -- at least its first element.

/-! ## Screening / triage resolver (`app/utils/reply.js`, `app/utils/triage.js`) -/

/-- `getRepliesWithHealthAnswers(replies)`: the replies that carry health
answers of which at least one is not `'No'`. -/
def getRepliesWithHealthAnswers (replies : List Reply) : List Reply :=
  replies.filter fun r =>
    match r.healthAnswers with
    | some hs => hs.any (fun kv => kv.2 != "No")
    | none => false

/-- `hasAnswersNeedingTriage(healthAnswers)`: some answer other than to the
umbrella `asthma` question equals `'Yes'`. -/
def hasAnswersNeedingTriage (h : Option HealthAnswers) : Bool :=
  match h with
  | none => false
  | some hs =>
      ((hs.filter (fun kv => !(kv.1 == "asthma"))).find?
        (fun kv => kv.2 == "Yes")).isSome

/-- `getScreenOutcome(patientSession)`, as a function of the consent-given
flag, the delivered responses and the triage audit events scoped to the
programme.  `false` (no screening) is `none`. -/
def getScreenOutcome (consentGiven : Bool) (responses : List Reply)
    (triageNotes : List AuditEvent) : Option String :=
  if !consentGiven then
    none
  else
    let responsesToTriage := getRepliesWithHealthAnswers responses
    let lastTriageNoteWithOutcome :=
      (triageNotes.filter (fun e => e.outcome.isSome)).getLast?
    if responsesToTriage.length == 0 then
      match lastTriageNoteWithOutcome with
      | some e => e.outcome
      | none => none
    else
      match lastTriageNoteWithOutcome with
      | some e => e.outcome
      | none => some ScreenOutcome.NeedsTriage

/-- `getTriageOutcome(patientSession)`: a view over the screen outcome. -/
def getTriageOutcome (screen : Option String) : String :=
  if screen == some ScreenOutcome.NeedsTriage then
    TriageOutcome.Needed
  else if screen.isSome then
    TriageOutcome.Completed
  else
    TriageOutcome.NotNeeded

/-! ## Outcome and activity router (`app/utils/patient-session.js`) -/

/-- `getNextActivity(patientSession)`: destructures the five derived fields
it reads and applies the first matching rule. -/
def getNextActivity (consent : String) (consentGiven : Bool) (triage : String)
    (screen : Option String) (report : String) : String :=
  if consent == ConsentOutcome.Refused || consent == ConsentOutcome.FinalRefusal then
    Activity.DoNotRecord
  else if !consentGiven then
    Activity.Consent
  else if triage == TriageOutcome.Needed then
    Activity.Triage
  else if screen == some ScreenOutcome.DoNotVaccinate then
    Activity.DoNotRecord
  else if report == PatientOutcome.Vaccinated then
    Activity.Report
  else
    Activity.Record

/-- Lookup in the session's register map (`session.register[patient.uuid]`). -/
def registerLookup (register : List (String × String)) (uuid : String) :
    Option String :=
  (register.find? (fun kv => kv.1 == uuid)).map (fun kv => kv.2)

/-- `getRegistrationOutcome(patientSession)`, as a function of the session's
`registration` flag and register map, the patient's uuid, and the derived
report outcome.  The register-map read is a JavaScript truthiness test, so
an empty-string entry behaves like a missing one. -/
def getRegistrationOutcome (registration : Bool)
    (register : List (String × String)) (patientUuid : String)
    (report : String) : String :=
  if !registration then
    RegistrationOutcome.Present
  else if report == PatientOutcome.Vaccinated then
    RegistrationOutcome.Complete
  else
    match registerLookup register patientUuid with
    | some v => if v != "" then v else RegistrationOutcome.Pending
    | none => RegistrationOutcome.Pending

/-- `getReportOutcome(patientSession)`: the overall programme outcome, from
the vaccination list, the consent outcome and the screen outcome. -/
def getReportOutcome (vaccinations : List Vaccination) (consent : String)
    (screen : Option String) : String :=
  match vaccinations.getLast? with
  | some v =>
      if v.given then PatientOutcome.Vaccinated
      else PatientOutcome.CouldNotVaccinate
  | none =>
      if consent == ConsentOutcome.Refused || consent == ConsentOutcome.FinalRefusal then
        PatientOutcome.CouldNotVaccinate
      else if screen == some ScreenOutcome.DoNotVaccinate then
        PatientOutcome.CouldNotVaccinate
      else
        PatientOutcome.NoOutcomeYet

/-! ## Session lifecycle resolver (`app/models/session.js`) -/

/-- A session's schedule: its (midday-normalised, chronological) dates and
the `closed` flag. -/
structure SessionSchedule where
  dates : List Int
  closed : Bool
  deriving Repr, DecidableEq

/-- `Session.status` getter: the `switch (true)` cascade, evaluated against
the midday-normalised current date.  `isAfter` against an undefined
`lastDate` is `false` (unreachable: the empty-dates case returned first). -/
def SessionSchedule.status (s : SessionSchedule) (todayMidday : Int) : String :=
  if s.closed then
    SessionStatus.Closed
  else if s.dates.length == 0 then
    SessionStatus.Unplanned
  else if (match s.dates.getLast? with
           | some d => decide (todayMidday > d)
           | none => false) then
    SessionStatus.Completed
  else
    SessionStatus.Planned

/-! ## Entity accessors over the repository (`app/models/patient-session.js`)

The model classes resolve their relations by id through the shared context
object.  `findOne` helpers are guarded (`context?.patients?.[uuid]`) and
return `undefined` on a miss; the `PatientSession` getters additionally wrap
the lookup in `try/catch`.  The `replies` getter, however, dereferences
`this.patient` without a guard, so a patient id that does not resolve makes
it raise a `TypeError`, which no caller catches.  That failure mode is
modelled with `Except`: `Except.error` marks a thrown `TypeError`. -/

/-- A stored reply record as the repository holds it: ownership ids plus the
reply payload. -/
structure ReplyRec where
  uuid : String
  patientUuid : String
  programmeId : String
  reply : Reply
  deriving Repr, DecidableEq

/-- A patient record: its uuid and its list of reply uuids. -/
structure PatientRec where
  uuid : String
  replyUuids : List String
  deriving Repr, DecidableEq

/-- The join entity the engine operates on, as stored: the ids of its
patient, programme and session. -/
structure PatientSessionRec where
  patientUuid : String
  programmeId : String
  sessionId : String
  deriving Repr, DecidableEq

/-- The in-memory repository (the `context` object). -/
structure Context where
  patients : List (String × PatientRec)
  replies : List (String × ReplyRec)
  sessions : List (String × Session)
  deriving Repr, DecidableEq

/-- Association-list lookup, the shape of `context.patients[uuid]`. -/
def ctxLookup {α : Type} (l : List (String × α)) (key : String) : Option α :=
  (l.find? (fun kv => kv.1 == key)).map (fun kv => kv.2)

/-- `PatientSession.patient` getter: `Patient.findOne` is guarded and the
getter catches, so a missing patient is `undefined`, never a throw. -/
def PatientSessionRec.patientAcc (ctx : Context) (ps : PatientSessionRec) :
    Option PatientRec :=
  ctxLookup ctx.patients ps.patientUuid

/-- `Patient.replies` getter: map the patient's reply uuids through
`Reply.findOne` and keep those whose `patient_uuid` points back. -/
def PatientRec.repliesAcc (ctx : Context) (p : PatientRec) : List ReplyRec :=
  (p.replyUuids.filterMap (fun uuid => ctxLookup ctx.replies uuid)).filter
    (fun rr => rr.patientUuid == p.uuid)

/-- `PatientSession.replies` getter: `this.patient.replies` filtered to the
patient session's programme.  With an unresolved patient id the getter
dereferences `undefined` and throws a `TypeError`. -/
def PatientSessionRec.repliesAcc (ctx : Context) (ps : PatientSessionRec) :
    Except String (List Reply) :=
  match ps.patientAcc ctx with
  | none => Except.error "TypeError"
  | some p =>
      Except.ok
        (((p.repliesAcc ctx).filter
            (fun rr => rr.programmeId == ps.programmeId)).map
          (fun rr => rr.reply))

/-- `PatientSession.session` getter: guarded lookup, `undefined` on a miss. -/
def PatientSessionRec.sessionAcc (ctx : Context) (ps : PatientSessionRec) :
    Option Session :=
  ctxLookup ctx.sessions ps.sessionId

/-- `getConfirmedConsentOutcome` under JavaScript exception semantics with a
possibly-undefined session: `session.offersAlternativeVaccine` is only read
inside the consent-given branch, so only that branch can throw. -/
def getConfirmedConsentOutcomeJS (r : Reply) (s? : Option Session) :
    Except String String :=
  if r.decision == ReplyDecision.NoResponse then
    Except.ok ConsentOutcome.NoResponse
  else if r.decision == ReplyDecision.Refused && r.confirmed then
    Except.ok ConsentOutcome.FinalRefusal
  else if r.given then
    match s? with
    | none => Except.error "TypeError"
    | some s =>
        Except.ok
          (if s.offersAlternativeVaccine && r.decision == ReplyDecision.OnlyAlternative then
            ConsentOutcome.GivenForAlternativeOnly
          else
            ConsentOutcome.Given)
  else
    Except.ok r.decision

/-- `getConsentOutcome` under JavaScript exception semantics with a
possibly-undefined session: identical control flow to `getConsentOutcome`,
with `getConfirmedConsentOutcomeJS` at the leaves. -/
def getConsentOutcomeJS (rs : List Reply) (s? : Option Session) :
    Except String String :=
  let replies := rs.filter (fun r => !r.invalid)
  match replies with
  | [r] =>
      if !r.delivered then
        Except.ok ConsentOutcome.NoRequest
      else
        getConfirmedConsentOutcomeJS r s?
  | [] => Except.ok ConsentOutcome.NoResponse
  | _ :: _ :: _ =>
      let delivered := replies.filter (fun r => r.delivered)
      if delivered.length == 0 then
        Except.ok ConsentOutcome.NoRequest
      else
        let decisions := uniqByDecision delivered []
        if decisions.length > 1 then
          match delivered.find? (fun r => !r.isParental) with
          | some childReply => getConfirmedConsentOutcomeJS childReply s?
          | none =>
              match decisions.find? (fun r => r.declined) with
              | some _ => Except.ok ConsentOutcome.Declined
              | none => Except.ok ConsentOutcome.Inconsistent
        else
          match decisions with
          | d :: _ => getConfirmedConsentOutcomeJS d s?
          | [] => Except.ok ConsentOutcome.NoResponse

/-- The `PatientSession.consent` getter (the consent resolver as the UI
invokes it): fetch the replies through the accessor chain, then aggregate.
A `TypeError` from the chain propagates. -/
def PatientSessionRec.consentAcc (ctx : Context) (ps : PatientSessionRec) :
    Except String String := do
  let rs ← ps.repliesAcc ctx
  getConsentOutcomeJS rs (ps.sessionAcc ctx)

/-! ## Shared concrete records for witnesses and counterexamples -/

/-- A session offering no programmes (so no alternative vaccine). -/
def sessNoAlt : Session := ⟨[]⟩

/-- A mum with no contact details (paper replies are always delivered). -/
def pMum : Parent := ⟨ParentalRelationship.Mum, "", "", false, ""⟩

/-- A dad with no contact details. -/
def pDad : Parent := ⟨ParentalRelationship.Dad, "", "", false, ""⟩

/-- A confirmed refusal from a parent, on paper. -/
def rRefusedConf : Reply :=
  ⟨ReplyDecision.Refused, true, false, none, ReplyMethod.Paper, some pMum, false⟩

/-- An unconfirmed refusal from a parent, on paper. -/
def rRefused : Reply :=
  ⟨ReplyDecision.Refused, false, false, none, ReplyMethod.Paper, some pMum, false⟩

/-- A consent-given reply from the other parent, on paper. -/
def rGivenDad : Reply :=
  ⟨ReplyDecision.Given, false, false, none, ReplyMethod.Paper, some pDad, false⟩

/-- A consent-given reply whose only affirmative health answer is the
umbrella asthma question. -/
def rAsthma : Reply :=
  ⟨ReplyDecision.Given, false, false, some [("asthma", "Yes")],
   ReplyMethod.Paper, some pMum, false⟩

/-- A refusal given by a Gillick-competent child (no parent attached). -/
def rChildRefused : Reply :=
  ⟨ReplyDecision.Refused, false, false, none, ReplyMethod.Paper, none, true⟩

/-! ## C5 — session lifecycle -/

/-- C5: a session's status is decided by the first matching rule of:
closed → Closed; no dates → Unplanned; today (midday-normalised, date-only)
after the last date → Completed; otherwise → Planned. -/
theorem session_status_rules (s : SessionSchedule) (todayMidday : Int) :
    (s.closed = true → s.status todayMidday = SessionStatus.Closed)
    ∧ (s.closed = false → s.dates = [] →
        s.status todayMidday = SessionStatus.Unplanned)
    ∧ (s.closed = false → ∀ d, s.dates.getLast? = some d →
        todayMidday > d → s.status todayMidday = SessionStatus.Completed)
    ∧ (s.closed = false → ∀ d, s.dates.getLast? = some d →
        todayMidday ≤ d → s.status todayMidday = SessionStatus.Planned) := by
  refine ⟨?_, ?_, ?_, ?_⟩
  · intro hc
    simp [SessionSchedule.status, hc]
  · intro hc hd
    simp [SessionSchedule.status, hc, hd]
  · intro hc d hlast hgt
    have hne : s.dates ≠ [] := by
      intro h
      rw [h] at hlast
      exact Option.noConfusion hlast
    simp [SessionSchedule.status, hc, hlast, hgt, List.length_eq_zero, hne]
  · intro hc d hlast hle
    have hne : s.dates ≠ [] := by
      intro h
      rw [h] at hlast
      exact Option.noConfusion hlast
    simp [SessionSchedule.status, hc, hlast, List.length_eq_zero, hne,
      not_lt.mpr hle]

/-- C5 witness: the session of property P7 — one date, not closed —
evaluated the day after is Completed. -/
theorem session_status_rules_witness :
    SessionSchedule.status ⟨[10], false⟩ 11 = SessionStatus.Completed :=
  (session_status_rules ⟨[10], false⟩ 11).2.2.1 rfl 10 rfl (by decide)

/-! ## C6 — next activity -/

/-- C6: the next activity is decided by the first matching rule of:
consent Refused or FinalRefusal → DoNotRecord; consent not given → Consent;
triage Needed → Triage; screen DoNotVaccinate → DoNotRecord; report
Vaccinated → Report; otherwise → Record. -/
theorem next_activity_rules (consent : String) (consentGiven : Bool)
    (triage : String) (screen : Option String) (report : String) :
    ((consent = ConsentOutcome.Refused ∨ consent = ConsentOutcome.FinalRefusal) →
        getNextActivity consent consentGiven triage screen report
          = Activity.DoNotRecord)
    ∧ (consent ≠ ConsentOutcome.Refused → consent ≠ ConsentOutcome.FinalRefusal →
        consentGiven = false →
        getNextActivity consent consentGiven triage screen report
          = Activity.Consent)
    ∧ (consent ≠ ConsentOutcome.Refused → consent ≠ ConsentOutcome.FinalRefusal →
        consentGiven = true → triage = TriageOutcome.Needed →
        getNextActivity consent consentGiven triage screen report
          = Activity.Triage)
    ∧ (consent ≠ ConsentOutcome.Refused → consent ≠ ConsentOutcome.FinalRefusal →
        consentGiven = true → triage ≠ TriageOutcome.Needed →
        screen = some ScreenOutcome.DoNotVaccinate →
        getNextActivity consent consentGiven triage screen report
          = Activity.DoNotRecord)
    ∧ (consent ≠ ConsentOutcome.Refused → consent ≠ ConsentOutcome.FinalRefusal →
        consentGiven = true → triage ≠ TriageOutcome.Needed →
        screen ≠ some ScreenOutcome.DoNotVaccinate →
        report = PatientOutcome.Vaccinated →
        getNextActivity consent consentGiven triage screen report
          = Activity.Report)
    ∧ (consent ≠ ConsentOutcome.Refused → consent ≠ ConsentOutcome.FinalRefusal →
        consentGiven = true → triage ≠ TriageOutcome.Needed →
        screen ≠ some ScreenOutcome.DoNotVaccinate →
        report ≠ PatientOutcome.Vaccinated →
        getNextActivity consent consentGiven triage screen report
          = Activity.Record) := by
  refine ⟨?_, ?_, ?_, ?_, ?_, ?_⟩
  · rintro (h | h) <;> simp [getNextActivity, h]
  · intro h1 h2 h3
    simp [getNextActivity, h1, h2, h3]
  · intro h1 h2 h3 h4
    simp [getNextActivity, h1, h2, h3, h4]
  · intro h1 h2 h3 h4 h5
    simp [getNextActivity, h1, h2, h3, h4, h5]
  · intro h1 h2 h3 h4 h5 h6
    simp [getNextActivity, h1, h2, h3, h4, h5, h6]
  · intro h1 h2 h3 h4 h5 h6
    simp [getNextActivity, h1, h2, h3, h4, h5, h6]

/-- C6 witness: a patient with consent given, triage needed, is routed to
the Triage activity. -/
theorem next_activity_rules_witness :
    getNextActivity ConsentOutcome.Given true TriageOutcome.Needed none
      PatientOutcome.NoOutcomeYet = Activity.Triage :=
  (next_activity_rules ConsentOutcome.Given true TriageOutcome.Needed none
      PatientOutcome.NoOutcomeYet).2.2.1 (by decide) (by decide) rfl rfl

/-! ## C7 — registration outcome -/

/-- C7: without registration the outcome is Present; with a Vaccinated
report it is Complete regardless of the register map; otherwise it is the
register-map entry, defaulting to Pending when no entry exists. -/
theorem registration_outcome_rules (register : List (String × String))
    (uuid : String) (report : String) :
    (getRegistrationOutcome false register uuid report
      = RegistrationOutcome.Present)
    ∧ (report = PatientOutcome.Vaccinated →
        getRegistrationOutcome true register uuid report
          = RegistrationOutcome.Complete)
    ∧ (report ≠ PatientOutcome.Vaccinated →
        (registerLookup register uuid = none →
          getRegistrationOutcome true register uuid report
            = RegistrationOutcome.Pending)
        ∧ ∀ v, registerLookup register uuid = some v →
            v ∈ [RegistrationOutcome.Pending, RegistrationOutcome.Present,
                 RegistrationOutcome.Absent, RegistrationOutcome.Complete] →
            getRegistrationOutcome true register uuid report = v) := by
  refine ⟨?_, ?_, ?_⟩
  · simp [getRegistrationOutcome]
  · intro h
    simp [getRegistrationOutcome, h]
  · intro h
    refine ⟨?_, ?_⟩
    · intro hnone
      simp [getRegistrationOutcome, h, hnone]
    · intro v hv hmem
      have hvals : v = RegistrationOutcome.Pending ∨ v = RegistrationOutcome.Present
          ∨ v = RegistrationOutcome.Absent ∨ v = RegistrationOutcome.Complete := by
        simpa using hmem
      have hnz : (v != "") = true := by
        rcases hvals with h' | h' | h' | h' <;> subst h' <;> decide
      simp [getRegistrationOutcome, h, hv, hnz]

/-- C7 witness: registration in use, empty register map, report not yet
recorded — outcome Pending. -/
theorem registration_outcome_rules_witness :
    getRegistrationOutcome true [] "p1" PatientOutcome.NoOutcomeYet
      = RegistrationOutcome.Pending :=
  ((registration_outcome_rules [] "p1" PatientOutcome.NoOutcomeYet).2.2
    (by decide)).1 rfl

/-! ## C10 — no-response replies are never invalid -/

/-- C10: the `Reply` constructor forces `invalid` to `false` when the
decision is NoResponse, even if the construction input flags it invalid, so
such a reply always survives the consent aggregator's non-invalid filter. -/
theorem noresponse_reply_never_invalid (o : ReplyOptions) (rs : List Reply)
    (hdec : o.decision = ReplyDecision.NoResponse) :
    (Reply.ofOptions o).invalid = false
    ∧ (Reply.ofOptions o ∈ rs →
        Reply.ofOptions o ∈ rs.filter (fun r => !r.invalid)) := by
  have h1 : (Reply.ofOptions o).invalid = false := by
    simp [Reply.ofOptions, hdec]
  exact ⟨h1, fun hm => List.mem_filter.mpr ⟨hm, by simp [h1]⟩⟩

/-- The construction input of a no-response reply flagged invalid. -/
def oNoResponseInvalid : ReplyOptions :=
  ⟨ReplyDecision.NoResponse, false, true, none, ReplyMethod.Paper,
   some pMum, false⟩

/-- C10 witness: a no-response reply whose construction input flags it as
invalid still has `invalid = false` and passes the aggregator's filter. -/
theorem noresponse_reply_never_invalid_witness :
    (Reply.ofOptions oNoResponseInvalid).invalid = false
    ∧ Reply.ofOptions oNoResponseInvalid
        ∈ [Reply.ofOptions oNoResponseInvalid].filter
            (fun r => !r.invalid) :=
  ⟨(noresponse_reply_never_invalid oNoResponseInvalid
      [Reply.ofOptions oNoResponseInvalid] rfl).1,
   (noresponse_reply_never_invalid oNoResponseInvalid
      [Reply.ofOptions oNoResponseInvalid] rfl).2
     (List.mem_singleton_self _)⟩

/-! ## C2 — what triggers triage -/

/-- C2 counterexample: one delivered consent-given reply whose only
affirmative health answer is the umbrella asthma question.  The claim's set
of answers needing triage (`hasAnswersNeedingTriage`, which is `'Yes'`
answers excluding the asthma parent question) is empty, yet the screening
outcome is NeedsTriage: `getScreenOutcome` filters with
`getRepliesWithHealthAnswers`, which keeps any answer other than `'No'` and
does not exclude the asthma question. -/
theorem screen_outcome_ignores_asthma_exclusion :
    getScreenOutcome true [rAsthma] [] = some ScreenOutcome.NeedsTriage
    ∧ hasAnswersNeedingTriage rAsthma.healthAnswers = false := by
  exact ⟨by decide, by decide⟩

/-- C2 amended: with consent given and no triage note carrying an outcome,
the screening outcome is NeedsTriage exactly when some delivered reply has
a health answer other than `'No'` — the asthma parent question included
(that is, when `getRepliesWithHealthAnswers` keeps at least one reply). -/
theorem screen_needs_triage_iff_some_answer (responses : List Reply)
    (notes : List AuditEvent)
    (hnotes : notes.filter (fun e => e.outcome.isSome) = []) :
    (getScreenOutcome true responses notes = some ScreenOutcome.NeedsTriage
      ↔ getRepliesWithHealthAnswers responses ≠ []) := by
  cases hr : getRepliesWithHealthAnswers responses with
  | nil => simp [getScreenOutcome, hnotes, hr]
  | cons a l => simp [getScreenOutcome, hnotes, hr]

/-- C2 amended witness: the asthma-only reply with no triage notes keeps a
reply in `getRepliesWithHealthAnswers`, so the screen outcome is
NeedsTriage. -/
theorem screen_needs_triage_iff_some_answer_witness :
    getScreenOutcome true [rAsthma] [] = some ScreenOutcome.NeedsTriage :=
  (screen_needs_triage_iff_some_answer [rAsthma] [] rfl).mpr (by decide)

/-! ## C8 — monotonicity of terminal outcomes -/

/-- C8 counterexample: a single confirmed refusal derives the terminal
consent outcome FinalRefusal; appending one further delivered, non-invalid
parental reply that gives consent (the patient session lists replies newest
first) makes the decisions conflict, and with no child reply and no decline
the aggregator derives Inconsistent — a non-terminal value.  So appending
one non-invalid Reply does change a terminal derived outcome back to a
transient one. -/
theorem terminal_consent_not_monotone :
    getConsentOutcome [rRefusedConf] sessNoAlt = ConsentOutcome.FinalRefusal
    ∧ getConsentOutcome [rGivenDad, rRefusedConf] sessNoAlt
        = ConsentOutcome.Inconsistent
    ∧ ConsentOutcome.Inconsistent ≠ ConsentOutcome.FinalRefusal := by
  exact ⟨by decide, by decide, by decide⟩

/-- C8 amended: the consent outcome reads only the replies and the session,
so appending an AuditEvent or Vaccination cannot change it; and a Vaccinated
report outcome survives appending a Reply or AuditEvent (which can only
alter the consent and screen inputs, ignored once a vaccination exists) and
appending a Vaccination whose outcome was given.  Appending a non-invalid
Reply, however, can change even a terminal consent outcome, as the
counterexample shows. -/
theorem report_vaccinated_stable (vs : List Vaccination) (c : String)
    (sc : Option String)
    (h : getReportOutcome vs c sc = PatientOutcome.Vaccinated) :
    (∀ c' sc', getReportOutcome vs c' sc' = PatientOutcome.Vaccinated)
    ∧ (∀ v : Vaccination, v.given = true → ∀ c' sc',
        getReportOutcome (vs ++ [v]) c' sc' = PatientOutcome.Vaccinated) := by
  have hlast : ∃ w, vs.getLast? = some w ∧ w.given = true := by
    cases hl : vs.getLast? with
    | none =>
        unfold getReportOutcome at h
        simp only [hl] at h
        split_ifs at h <;> exact absurd h (by decide)
    | some w =>
        refine ⟨w, rfl, ?_⟩
        unfold getReportOutcome at h
        simp only [hl] at h
        by_cases hw : w.given = true
        · exact hw
        · rw [if_neg hw] at h
          exact absurd h (by decide)
  obtain ⟨w, hwlast, hwg⟩ := hlast
  constructor
  · intro c' sc'
    unfold getReportOutcome
    simp only [hwlast]
    rw [if_pos hwg]
  · intro v hv c' sc'
    unfold getReportOutcome
    simp only [List.getLast?_concat]
    rw [if_pos hv]

/-- C8 amended witness: a recorded given vaccination keeps the report
Vaccinated even after the consent and screen inputs turn maximally
unfavourable. -/
theorem report_vaccinated_stable_witness :
    getReportOutcome [⟨VaccinationOutcome.Vaccinated⟩]
        ConsentOutcome.FinalRefusal (some ScreenOutcome.DoNotVaccinate)
      = PatientOutcome.Vaccinated :=
  (report_vaccinated_stable [⟨VaccinationOutcome.Vaccinated⟩]
      PatientOutcome.NoOutcomeYet none (by decide)).1
    ConsentOutcome.FinalRefusal (some ScreenOutcome.DoNotVaccinate)

/-! ## C9 — resolvers on an unresolved patient id -/

/-- C9: on a repository where the patient session's patient id resolves to
nothing, the `patient` accessor itself returns `undefined` without
throwing, but the `replies` accessor dereferences that `undefined` and
throws a `TypeError`, which the consent resolver propagates — contradicting
the requirement that every resolver return a well-defined unknown/false
outcome rather than throw. -/
theorem consent_resolver_throws_on_missing_patient :
    PatientSessionRec.patientAcc ⟨[], [], []⟩ ⟨"p1", "pr1", "s1"⟩ = none
    ∧ PatientSessionRec.repliesAcc ⟨[], [], []⟩ ⟨"p1", "pr1", "s1"⟩
        = Except.error "TypeError"
    ∧ PatientSessionRec.consentAcc ⟨[], [], []⟩ ⟨"p1", "pr1", "s1"⟩
        = Except.error "TypeError" :=
  ⟨rfl, rfl, rfl⟩

/-! ## C4 — single refused reply -/

/-- Evaluating `getConfirmedConsentOutcome` on a refused reply: confirmed
refusals become FinalRefusal, unconfirmed ones fall through to the decision
itself, whose string value is `ConsentOutcome.Refused`. -/
theorem getConfirmedConsentOutcome_refused (r : Reply) (s : Session)
    (hdec : r.decision = ReplyDecision.Refused) :
    getConfirmedConsentOutcome r s =
      if r.confirmed then ConsentOutcome.FinalRefusal
      else ConsentOutcome.Refused := by
  have e1 : (ReplyDecision.Refused == ReplyDecision.NoResponse) = false := by decide
  have e3 : givenDecisions.contains ReplyDecision.Refused = false := by decide
  cases hc : r.confirmed
  · simp only [getConfirmedConsentOutcome, hdec, hc, Reply.given, e1, e3,
      Bool.false_eq_true, if_false, Bool.and_false, Bool.and_true]
    rfl
  · simp [getConfirmedConsentOutcome, hdec, hc, Reply.given, e1, e3]

/-- C4: with exactly one delivered, non-invalid reply, whose decision is
Refused, the consent outcome is FinalRefusal when the reply is confirmed
and Refused otherwise (whatever undelivered non-invalid replies remain in
the list, both the single-reply path and the several-replies path resolve
through `getConfirmedConsentOutcome` on that one reply). -/
theorem single_refused_reply_outcome (rs : List Reply) (s : Session)
    (r : Reply)
    (h : (rs.filter (fun x => !x.invalid)).filter (fun x => x.delivered)
        = [r])
    (hdec : r.decision = ReplyDecision.Refused) :
    getConsentOutcome rs s =
      if r.confirmed then ConsentOutcome.FinalRefusal
      else ConsentOutcome.Refused := by
  cases hV : rs.filter (fun x => !x.invalid) with
  | nil =>
      rw [hV] at h
      simp at h
  | cons a t =>
      cases t with
      | nil =>
          rw [hV] at h
          by_cases hd : a.delivered = true
          · have har : a = r := by
              simp [List.filter, hd] at h
              exact h
            subst har
            simp only [getConsentOutcome, hV]
            rw [if_neg (by simp [hd])]
            exact getConfirmedConsentOutcome_refused a s hdec
          · simp [List.filter, Bool.eq_false_iff.mpr hd] at h
      | cons b u =>
          rw [hV] at h
          simp only [getConsentOutcome, hV, h]
          have huniq : uniqByDecision [r] [] = [r] := by
            simp [uniqByDecision]
          rw [huniq]
          have hlen0 : ¬ (([r].length == 0) = true) := by simp
          have hlen1 : ¬ ([r].length > 1) := by simp
          rw [if_neg hlen0, if_neg hlen1]
          exact getConfirmedConsentOutcome_refused r s hdec

/-- C4 witness: one confirmed refusal on paper yields FinalRefusal, one
unconfirmed refusal yields Refused. -/
theorem single_refused_reply_outcome_witness :
    getConsentOutcome [rRefusedConf] sessNoAlt = ConsentOutcome.FinalRefusal
    ∧ getConsentOutcome [rRefused] sessNoAlt = ConsentOutcome.Refused := by
  constructor
  · have := single_refused_reply_outcome [rRefusedConf] sessNoAlt rRefusedConf
      (by decide) rfl
    simpa using this
  · have := single_refused_reply_outcome [rRefused] sessNoAlt rRefused
      (by decide) rfl
    simpa using this

/-! ## C3 — triage recency -/

/-- The last element of a non-empty list is a member of it. -/
theorem mem_of_getLast?_eq_some {a : AuditEvent} {l : List AuditEvent}
    (h : l.getLast? = some a) : a ∈ l := by
  obtain ⟨hne, heq⟩ := List.mem_getLast?_eq_getLast (Option.mem_def.mpr h)
  rw [heq]
  exact List.getLast_mem hne

/-- In a list whose creation instants are strictly increasing in order, the
last element carries the maximal instant. -/
theorem getLast_createdAt_max (l : List AuditEvent) (e : AuditEvent)
    (hp : l.Pairwise (fun a b => a.createdAt < b.createdAt))
    (hl : l.getLast? = some e) :
    ∀ x ∈ l, x.createdAt ≤ e.createdAt := by
  induction l with
  | nil => simp at hl
  | cons a t ih =>
      cases t with
      | nil =>
          simp only [List.getLast?_singleton, Option.some.injEq] at hl
          subst hl
          intro x hx
          simp only [List.mem_singleton] at hx
          subst hx
          exact le_refl _
      | cons b u =>
          have hl' : (b :: u).getLast? = some e := by
            rw [List.getLast?_cons_cons] at hl
            exact hl
          obtain ⟨ha, hp'⟩ := List.pairwise_cons.mp hp
          have hrec := ih hp' hl'
          intro x hx
          rcases List.mem_cons.mp hx with rfl | hx'
          · have hmem : e ∈ b :: u := mem_of_getLast?_eq_some hl'
            exact le_of_lt (ha e hmem)
          · exact hrec x hx'

/-- An answer needing triage keeps its reply in
`getRepliesWithHealthAnswers`: a non-asthma `'Yes'` answer is in particular
an answer other than `'No'`. -/
theorem mem_withHealthAnswers_of_needsTriage (r : Reply) (rs : List Reply)
    (hm : r ∈ rs) (hr : hasAnswersNeedingTriage r.healthAnswers = true) :
    r ∈ getRepliesWithHealthAnswers rs := by
  apply List.mem_filter.mpr
  refine ⟨hm, ?_⟩
  unfold hasAnswersNeedingTriage at hr
  cases hh : r.healthAnswers with
  | none => rw [hh] at hr; simp at hr
  | some hs =>
      rw [hh] at hr
      obtain ⟨kv, hfind⟩ := Option.isSome_iff_exists.mp hr
      have hkvmem : kv ∈ hs.filter (fun kv => !(kv.1 == "asthma")) :=
        List.mem_of_find?_eq_some hfind
      have hkv := List.find?_some hfind
      have hyes : kv.2 = "Yes" := by simpa using hkv
      simp only [hh]
      apply List.any_eq_true.mpr
      refine ⟨kv, List.mem_of_mem_filter hkvmem, ?_⟩
      rw [hyes]
      decide

/-- C3: with consent given, at least one reply answer needing triage, and
two or more triage events carrying an outcome whose instants increase in
append order, the screen outcome is the outcome of the last such event —
which is also the most recent one. -/
theorem triage_recency (responses : List Reply) (notes : List AuditEvent)
    (htr : ∃ r ∈ responses, hasAnswersNeedingTriage r.healthAnswers = true)
    (hlen : 2 ≤ (notes.filter (fun e => e.outcome.isSome)).length)
    (hmono : (notes.filter (fun e => e.outcome.isSome)).Pairwise
      (fun a b => a.createdAt < b.createdAt)) :
    ∃ e, (notes.filter (fun x => x.outcome.isSome)).getLast? = some e
      ∧ getScreenOutcome true responses notes = e.outcome
      ∧ ∀ x ∈ notes.filter (fun y => y.outcome.isSome),
          x.createdAt ≤ e.createdAt := by
  obtain ⟨r, hrm, hr⟩ := htr
  have hmem : r ∈ getRepliesWithHealthAnswers responses :=
    mem_withHealthAnswers_of_needsTriage r responses hrm hr
  have hne : getRepliesWithHealthAnswers responses ≠ [] := by
    intro h0
    rw [h0] at hmem
    exact absurd hmem (List.not_mem_nil r)
  have hfne : notes.filter (fun e => e.outcome.isSome) ≠ [] := by
    intro h0
    rw [h0] at hlen
    simp at hlen
  obtain ⟨e, he⟩ : ∃ e,
      (notes.filter (fun x => x.outcome.isSome)).getLast? = some e := by
    cases hG : (notes.filter (fun x => x.outcome.isSome)).getLast? with
    | none => exact absurd (List.getLast?_eq_none_iff.mp hG) hfne
    | some e => exact ⟨e, rfl⟩
  refine ⟨e, he, ?_, getLast_createdAt_max _ e hmono he⟩
  have hlenne : ¬ (((getRepliesWithHealthAnswers responses).length == 0)
      = true) := by
    simp only [beq_iff_eq, List.length_eq_zero]
    exact hne
  unfold getScreenOutcome
  rw [if_neg (by simp)]
  simp only [he]
  rw [if_neg hlenne]

/-- A consent-given reply with a severe-allergy answer of Yes. -/
def rYesAllergy : Reply :=
  ⟨ReplyDecision.Given, false, false, some [("allergySevere", "Yes")],
   ReplyMethod.Paper, some pMum, false⟩

/-- A first triage decision: keep in triage. -/
def evTriageKeep : AuditEvent := ⟨1, some ScreenOutcome.NeedsTriage⟩

/-- A later triage decision: safe to vaccinate. -/
def evTriageSafe : AuditEvent := ⟨2, some ScreenOutcome.Vaccinate⟩

/-- C3 witness: property P6 — a Yes health answer, then NeedsTriage at t1
and Vaccinate at t2 > t1; the screen outcome follows the later event. -/
theorem triage_recency_witness :
    getScreenOutcome true [rYesAllergy] [evTriageKeep, evTriageSafe]
      = some ScreenOutcome.Vaccinate := by
  obtain ⟨e, he, hscreen, -⟩ :=
    triage_recency [rYesAllergy] [evTriageKeep, evTriageSafe]
      ⟨rYesAllergy, by decide, by decide⟩ (by decide)
      (by simp [List.pairwise_cons, evTriageKeep, evTriageSafe])
  have h2 : (([evTriageKeep, evTriageSafe] : List AuditEvent).filter
      (fun x => x.outcome.isSome)).getLast? = some evTriageSafe := by decide
  rw [h2] at he
  have he' : e = evTriageSafe := (Option.some_inj.mp he).symm
  rw [hscreen, he']
  rfl

/-! ## C1 — conflicting replies -/

/-- The aggregator's working list: the delivered, non-invalid replies of
the patient session (invalid dropped first, then undelivered). -/
def deliveredValid (rs : List Reply) : List Reply :=
  (rs.filter (fun r => !r.invalid)).filter (fun r => r.delivered)

/-- The reply was given by the child rather than a parent. -/
def Reply.fromChild (r : Reply) : Prop :=
  r.parent = none ∧ r.child = true

/-- Data well-formedness: a reply's respondent is either a parent with one
of the enumerated parental relationships, or the child. -/
def Reply.hasRespondent (r : Reply) : Prop :=
  (∃ p, r.parent = some p ∧ p.relationship ∈ parentalRelationships)
    ∨ (r.parent = none ∧ r.child = true)

/-- Every element kept by `uniqByDecision` comes from the input list. -/
theorem uniqByDecision_subset :
    ∀ (rs : List Reply) (seen : List String) (r : Reply),
      r ∈ uniqByDecision rs seen → r ∈ rs := by
  intro rs
  induction rs with
  | nil => intro seen r hr; simp [uniqByDecision] at hr
  | cons a t ih =>
      intro seen r hr
      simp only [uniqByDecision] at hr
      by_cases h : seen.contains a.decision = true
      · rw [if_pos h] at hr
        exact List.mem_cons_of_mem _ (ih seen r hr)
      · rw [if_neg h] at hr
        rcases List.mem_cons.mp hr with rfl | hr'
        · exact List.mem_cons_self _ _
        · exact List.mem_cons_of_mem _ (ih _ r hr')

/-- Every decision in the input not yet seen is represented in the output
of `uniqByDecision`. -/
theorem uniqByDecision_covers :
    ∀ (rs : List Reply) (seen : List String) (r : Reply),
      r ∈ rs → seen.contains r.decision = false →
      ∃ u ∈ uniqByDecision rs seen, u.decision = r.decision := by
  intro rs
  induction rs with
  | nil => intro seen r hr; simp at hr
  | cons a t ih =>
      intro seen r hr hseen
      rcases List.mem_cons.mp hr with rfl | hr'
      · simp only [uniqByDecision, hseen, Bool.false_eq_true, if_false]
        exact ⟨r, List.mem_cons_self _ _, rfl⟩
      · by_cases h : seen.contains a.decision = true
        · simp only [uniqByDecision, h, if_true]
          exact ih seen r hr' hseen
        · by_cases heq : a.decision = r.decision
          · refine ⟨a, ?_, heq⟩
            simp only [uniqByDecision, h, Bool.false_eq_true, if_false]
            exact List.mem_cons_self _ _
          · have hseen' : (a.decision :: seen).contains r.decision = false := by
              simp only [List.contains_cons, Bool.or_eq_false_iff]
              constructor
              · exact beq_eq_false_iff_ne.mpr (fun hx => heq hx.symm)
              · exact hseen
            obtain ⟨u, hu, hud⟩ := ih (a.decision :: seen) r hr' hseen'
            refine ⟨u, ?_, hud⟩
            simp only [uniqByDecision, h, Bool.false_eq_true, if_false]
            exact List.mem_cons_of_mem _ hu

/-- A list containing two distinct elements has length above one. -/
theorem length_gt_one_of_two_mem {l : List Reply} {x y : Reply}
    (hx : x ∈ l) (hy : y ∈ l) (hxy : x ≠ y) : 1 < l.length := by
  cases l with
  | nil => simp at hx
  | cons a t =>
      cases t with
      | nil =>
          simp only [List.mem_singleton] at hx hy
          exact absurd (hx.trans hy.symm) hxy
      | cons b u => simp only [List.length_cons]; omega

/-- Reduction of `getConsentOutcome` to the conflicting-decisions branch:
with at least two delivered, non-invalid replies and more than one distinct
decision among them, the outcome is decided by the child-reply search, then
the declined search. -/
theorem getConsentOutcome_conflict (rs : List Reply) (s : Session)
    (hlen2 : 2 ≤ (deliveredValid rs).length)
    (hdec2 : 1 < (uniqByDecision (deliveredValid rs) []).length) :
    getConsentOutcome rs s =
      match (deliveredValid rs).find? (fun r => !r.isParental) with
      | some childReply => getConfirmedConsentOutcome childReply s
      | none =>
          match (uniqByDecision (deliveredValid rs) []).find?
              (fun r => r.declined) with
          | some _ => ConsentOutcome.Declined
          | none => ConsentOutcome.Inconsistent := by
  have hlenV : 2 ≤ (rs.filter (fun r => !r.invalid)).length := by
    have hsub : (deliveredValid rs).length
        ≤ (rs.filter (fun r => !r.invalid)).length :=
      List.length_filter_le _ _
    omega
  unfold deliveredValid at hlen2 hdec2 ⊢
  cases hV : rs.filter (fun r => !r.invalid) with
  | nil => rw [hV] at hlenV; simp at hlenV
  | cons a t =>
      cases t with
      | nil => rw [hV] at hlenV; simp at hlenV
      | cons b u =>
          rw [hV] at hlen2 hdec2
          have h0 : ¬ ((((a :: b :: u).filter
              (fun r => r.delivered)).length == 0) = true) := by
            simp only [beq_iff_eq, List.length_eq_zero]
            intro hnil
            rw [hnil] at hlen2
            simp at hlen2
          simp only [getConsentOutcome, hV]
          rw [if_neg h0, if_pos hdec2]

/-- C1: with two or more delivered, non-invalid replies whose decisions are
not all equal (and each reply from a parent with an enumerated relationship
or from the child), the outcome follows the conflict precedence: a child
reply's derived outcome wins; failing that a Declined decision forces
Declined; failing that the outcome is Inconsistent. -/
theorem conflicting_replies_resolution (rs : List Reply) (s : Session)
    (hlen : 2 ≤ (deliveredValid rs).length)
    (hdiff : ∃ r1 ∈ deliveredValid rs, ∃ r2 ∈ deliveredValid rs,
        r1.decision ≠ r2.decision)
    (hwf : ∀ r ∈ deliveredValid rs, r.hasRespondent) :
    ((∃ r ∈ deliveredValid rs, r.fromChild) →
        ∃ r ∈ deliveredValid rs, r.fromChild
          ∧ getConsentOutcome rs s = getConfirmedConsentOutcome r s)
    ∧ ((∀ r ∈ deliveredValid rs, ¬ r.fromChild) →
        (∃ r ∈ deliveredValid rs, r.decision = ReplyDecision.Declined) →
        getConsentOutcome rs s = ConsentOutcome.Declined)
    ∧ ((∀ r ∈ deliveredValid rs, ¬ r.fromChild) →
        (∀ r ∈ deliveredValid rs, r.decision ≠ ReplyDecision.Declined) →
        getConsentOutcome rs s = ConsentOutcome.Inconsistent) := by
  obtain ⟨r1, hr1, r2, hr2, hne⟩ := hdiff
  obtain ⟨u1, hu1m, hu1d⟩ := uniqByDecision_covers _ [] r1 hr1 rfl
  obtain ⟨u2, hu2m, hu2d⟩ := uniqByDecision_covers _ [] r2 hr2 rfl
  have hu12 : u1 ≠ u2 := fun h => hne (by rw [← hu1d, ← hu2d, h])
  have hdec2 : 1 < (uniqByDecision (deliveredValid rs) []).length :=
    length_gt_one_of_two_mem hu1m hu2m hu12
  have hred := getConsentOutcome_conflict rs s hlen hdec2
  have hparental : (∀ r ∈ deliveredValid rs, ¬ r.fromChild) →
      (deliveredValid rs).find? (fun r => !r.isParental) = none := by
    intro hnochild
    apply List.find?_eq_none.mpr
    intro x hx
    rcases hwf x hx with ⟨p, hp, hrel⟩ | hch
    · have hpar : x.isParental = true := by
        simp only [Reply.isParental, Reply.relationship, hp]
        exact List.elem_iff.mpr hrel
      simp [hpar]
    · exact absurd hch (hnochild x hx)
  refine ⟨?_, ?_, ?_⟩
  · rintro ⟨c, hcm, hc⟩
    have hcpred : (!c.isParental) = true := by
      obtain ⟨hp, hch⟩ := hc
      simp [Reply.isParental, Reply.relationship, hp, hch,
        parentalRelationships, ParentalRelationship.Mum,
        ParentalRelationship.Dad, ParentalRelationship.Guardian,
        ParentalRelationship.Fosterer, ParentalRelationship.Other,
        ParentalRelationship.Unknown]
    cases hfind : (deliveredValid rs).find? (fun r => !r.isParental) with
    | none =>
        have hall := List.find?_eq_none.mp hfind c hcm
        exact absurd hcpred (by simpa using hall)
    | some r0 =>
        have hr0m : r0 ∈ deliveredValid rs := List.mem_of_find?_eq_some hfind
        have hr0p := List.find?_some hfind
        have hr0child : r0.fromChild := by
          rcases hwf r0 hr0m with ⟨p, hp, hrel⟩ | hch
          · exfalso
            have hpar : r0.isParental = true := by
              simp only [Reply.isParental, Reply.relationship, hp]
              exact List.elem_iff.mpr hrel
            rw [hpar] at hr0p
            simp at hr0p
          · exact hch
        exact ⟨r0, hr0m, hr0child, by rw [hred, hfind]⟩
  · intro hnochild hdecl
    obtain ⟨rd, hrdm, hrdd⟩ := hdecl
    obtain ⟨ud, hudm, hudd⟩ := uniqByDecision_covers _ [] rd hrdm rfl
    have huddecl : ud.declined = true := by
      simp [Reply.declined, hudd, hrdd]
    cases hfind2 : (uniqByDecision (deliveredValid rs) []).find?
        (fun r => r.declined) with
    | none =>
        have hall := List.find?_eq_none.mp hfind2 ud hudm
        exact absurd huddecl (by simpa using hall)
    | some w =>
        rw [hred, hparental hnochild, hfind2]
  · intro hnochild hnone
    have hfind2 : (uniqByDecision (deliveredValid rs) []).find?
        (fun r => r.declined) = none := by
      apply List.find?_eq_none.mpr
      intro x hx
      have hxm : x ∈ deliveredValid rs := uniqByDecision_subset _ [] x hx
      have hxd := hnone x hxm
      simp only [Reply.declined]
      simp [beq_eq_false_iff_ne.mpr hxd]
    rw [hred, hparental hnochild, hfind2]

/-- C1 witness: property P5 — a Gillick-competent child's refusal beside a
conflicting parental consent; the child reply's derived outcome wins. -/
theorem conflicting_replies_resolution_witness :
    getConsentOutcome [rChildRefused, rGivenDad] sessNoAlt
      = getConfirmedConsentOutcome rChildRefused sessNoAlt := by
  obtain ⟨r, hrm, hrc, hout⟩ :=
    (conflicting_replies_resolution [rChildRefused, rGivenDad] sessNoAlt
        (by decide)
        ⟨rChildRefused, by decide, rGivenDad, by decide, by decide⟩
        (by
          intro r hr
          have hdv : deliveredValid [rChildRefused, rGivenDad]
              = [rChildRefused, rGivenDad] := by decide
          rw [hdv] at hr
          rcases List.mem_cons.mp hr with rfl | hr'
          · exact Or.inr ⟨rfl, rfl⟩
          · have hx : r = rGivenDad := by simpa using hr'
            subst hx
            exact Or.inl ⟨pDad, rfl, by decide⟩)).1
      ⟨rChildRefused, by decide, rfl, rfl⟩
  have hdv : deliveredValid [rChildRefused, rGivenDad]
      = [rChildRefused, rGivenDad] := by decide
  rw [hdv] at hrm
  rcases List.mem_cons.mp hrm with rfl | hr'
  · exact hout
  · have hx : r = rGivenDad := by simpa using hr'
    subst hx
    exact absurd hrc.1 (by decide)

end Mavis
